import Mathlib

/-!
Verification of the countries_visited repository against its
natural-language specification.

The development shallowly embeds the two components the claims are about:

* the multi-owner colour mixing of the map style function
  (app.py, style_fn, lines 161-199), and
* the HDF5 participant store (h5_utils.py: init_h5, add_player,
  update_visits, get_players, clear_player_visits).

Python machine behaviour is embedded as follows: hex parsing with the
semantics of int(x, 16) on two-character slices (hex digits, an optional
leading or trailing blank, an optional sign); integer truncation
int((s / n) ** 0.5) as Nat.sqrt (s / n), which agrees with the float
computation because s is a sum of channel squares (so s / n is computed
exactly for all feasible participant counts, and the floor of the square
root of a rational equals the floor of the square root of its integer
part); exceptions as an explicit outcome type naming the Python
exception class.  The HDF5 file is a finite map from player id to a
player record; its group names are unique, which the association-list
embedding mirrors through a key-nodup hypothesis where it matters.
-/

/-- RGB channel triple as produced by hex parsing in style_fn (app.py,
lines 175-178).  Channels are Int because int(x, 16) yields a negative
value on a slice such as "-f". -/
abbrev RGB := Int × Int × Int

/-- Fuelled integer square root (digit-by-digit recursion on m / 4); the
fuel only bounds the recursion depth.  Structural recursion is used so
that concrete instances evaluate inside the kernel. -/
def isqrtFuel : Nat → Nat → Nat
  | 0, _ => 0
  | Nat.succ fuel, m =>
    if m < 2 then m
    else
      let r := 2 * isqrtFuel fuel (m / 4)
      if (r + 1) * (r + 1) ≤ m then r + 1 else r

/-- Integer square root: the floor of the real square root, the value of
Python int(x ** 0.5) for an exactly represented nonnegative x. -/
def isqrt (m : Nat) : Nat := isqrtFuel m m

theorem isqrtFuel_succ (fuel m : Nat) (h2 : ¬ m < 2) :
    isqrtFuel (fuel + 1) m =
      (if (2 * isqrtFuel fuel (m / 4) + 1) * (2 * isqrtFuel fuel (m / 4) + 1) ≤ m
       then 2 * isqrtFuel fuel (m / 4) + 1 else 2 * isqrtFuel fuel (m / 4)) := by
  simp only [isqrtFuel, if_neg h2]

theorem isqrtFuel_spec (fuel : Nat) : ∀ m : Nat, m ≤ fuel →
    isqrtFuel fuel m * isqrtFuel fuel m ≤ m ∧
      m < (isqrtFuel fuel m + 1) * (isqrtFuel fuel m + 1) := by
  induction fuel with
  | zero =>
    intro m hm
    interval_cases m
    decide
  | succ fuel ih =>
    intro m hm
    by_cases h2 : m < 2
    · interval_cases m <;> norm_num [isqrtFuel]
    · have hrec : m / 4 ≤ fuel := by
        have h4 : m / 4 < m := Nat.div_lt_self (by omega) (by omega)
        omega
      obtain ⟨hlo, hhi⟩ := ih (m / 4) hrec
      rw [isqrtFuel_succ fuel m h2]
      set s := isqrtFuel fuel (m / 4) with hs
      have hm4 : 4 * (m / 4) ≤ m ∧ m < 4 * (m / 4) + 4 := by omega
      have hsq : 4 * (s * s) ≤ m := by nlinarith [hm4.1]
      have hup : m < (2 * s + 2) * (2 * s + 2) := by nlinarith [hm4.2]
      by_cases hbr : (2 * s + 1) * (2 * s + 1) ≤ m
      · rw [if_pos hbr]
        exact ⟨hbr, by nlinarith⟩
      · rw [if_neg hbr]
        exact ⟨by nlinarith, by omega⟩

theorem isqrt_eq_sqrt (m : Nat) : isqrt m = Nat.sqrt m := by
  obtain ⟨hlo, hhi⟩ := isqrtFuel_spec m m (le_refl m)
  have h1 : isqrt m ≤ Nat.sqrt m := Nat.le_sqrt.mpr hlo
  have h2 : Nat.sqrt m < isqrt m + 1 := Nat.sqrt_lt.mpr hhi
  omega

/-- Value of one hexadecimal digit character, as accepted by Python
int(x, 16) for ASCII inputs: 0-9, a-f, A-F. -/
def hexDigitVal (c : Char) : Option Nat :=
  if 48 ≤ c.toNat ∧ c.toNat ≤ 57 then some (c.toNat - 48)
  else if 97 ≤ c.toNat ∧ c.toNat ≤ 102 then some (c.toNat - 87)
  else if 65 ≤ c.toNat ∧ c.toNat ≤ 70 then some (c.toNat - 55)
  else none

/-- ASCII whitespace stripped by Python int() around the digits. -/
def pyIsSpace (c : Char) : Bool :=
  c == ' ' || c.toNat == 9 || c.toNat == 10 || c.toNat == 13 ||
    c.toNat == 11 || c.toNat == 12

/-- Semantics of Python int(str, 16) on a two-character slice, as used on
hex_color[1:3], hex_color[3:5] and hex_color[5:7] in style_fn: either two
hex digits, or one hex digit with one surrounding blank, or a sign
followed by one hex digit; anything else raises ValueError (None here). -/
def pyIntHex2 (a b : Char) : Option Int :=
  match hexDigitVal a, hexDigitVal b with
  | some x, some y => some (Int.ofNat (16 * x + y))
  | some x, none => if pyIsSpace b then some (Int.ofNat x) else none
  | none, some y =>
    if pyIsSpace a then some (Int.ofNat y)
    else if a == '+' then some (Int.ofNat y)
    else if a == '-' then some (-(Int.ofNat y))
    else none
  | none, none => none

/-- Test used at app.py line 168: whether the string starts with the
hash character. -/
def hasHashHead (s : String) : Bool :=
  match s.toList with
  | c :: _ => c == '#'
  | [] => false

/-- Normalisation of one colour string in style_fn (app.py, lines
166-172): prepend '#' when missing, then replace the whole string by the
gray "#777777" when its length is not 7. -/
def normColor (s : String) : String :=
  let t := if hasHashHead s then s else "#" ++ s
  if t.length ≠ 7 then "#777777" else t

/-- Conversion of one (normalised) colour string to its RGB triple
(app.py, lines 175-178); None models the ValueError raised by int(x, 16)
on a non-hex slice, which the surrounding try/except of style_fn turns
into the default style. -/
def toRGB (s : String) : Option RGB :=
  match (normColor s).toList with
  | [_, c1, c2, c3, c4, c5, c6] =>
    match pyIntHex2 c1 c2, pyIntHex2 c3 c4, pyIntHex2 c5 c6 with
    | some r, some g, some b => some (r, g, b)
    | _, _, _ => none
  | _ => none

/-- Square of a channel value (color[i] ** 2 in app.py, lines 182-184),
a natural number. -/
def sqNat (v : Int) : Nat := (v * v).toNat

/-- One mixed output channel (app.py, lines 182-193):
int((sum of squares / count) ** 0.5) followed by max(0, min(255, _)). -/
def mixChannel (f : RGB → Int) (rgbs : List RGB) : Nat :=
  max 0 (min 255 (isqrt ((rgbs.map (fun t => sqNat (f t))).sum / rgbs.length)))

/-- Hexadecimal digit character, lowercase, as produced by the Python
format spec 02x. -/
def hexDigitChar (n : Nat) : Char :=
  if n < 10 then Char.ofNat (48 + n) else Char.ofNat (87 + n)

/-- Two-digit lowercase hex rendering of a byte (format spec 02x). -/
def byteToHex (v : Nat) : String :=
  String.mk [hexDigitChar (v / 16), hexDigitChar (v % 16)]

/-- Rendering of the mixed colour (app.py, line 195). -/
def formatColor (r g b : Nat) : String :=
  "#" ++ byteToHex r ++ byteToHex g ++ byteToHex b

/-- Observable outcome of the multi-owner branch of style_fn: either the
default white style (also the result of the except handler at app.py
lines 200-203) or a style filled with the mixed colour. -/
inductive Style where
  | defaultStyle
  | merged (fillColor : String)
deriving DecidableEq, Repr

/-- Multi-owner branch of style_fn (app.py, lines 161-199) as a function
of the owners' colour list.  An empty list raises ZeroDivisionError and a
non-parsable slice raises ValueError; both are caught by the handler at
lines 200-203, which returns the default style. -/
def styleMulti (colors : List String) : Style :=
  if colors.isEmpty then .defaultStyle
  else if colors.all (fun c => (toRGB c).isSome) then
    let rgbs := colors.filterMap toRGB
    .merged (formatColor (mixChannel (fun t => t.1) rgbs)
      (mixChannel (fun t => t.2.1) rgbs)
      (mixChannel (fun t => t.2.2) rgbs))
  else .defaultStyle

/-- Test for a well-formed colour literal: a hash sign followed by six
hex digits. -/
def validHexColor (s : String) : Bool :=
  match s.toList with
  | [h, c1, c2, c3, c4, c5, c6] =>
    h == '#' && (hexDigitVal c1).isSome && (hexDigitVal c2).isSome &&
      (hexDigitVal c3).isSome && (hexDigitVal c4).isSome &&
      (hexDigitVal c5).isSome && (hexDigitVal c6).isSome
  | _ => false

/-- Value of a two-hex-digit byte (spec-side decomposition helper). -/
def hexByteVal (a b : Char) : Nat :=
  16 * (hexDigitVal a).getD 0 + (hexDigitVal b).getD 0

/-- Decomposition of a well-formed colour into its channels, written
from the wording of the spec (decompose each colour into R, G, B
channels in [0, 255]); only meaningful on valid colours. -/
def specDecompose (s : String) : RGB :=
  match s.toList with
  | [_, c1, c2, c3, c4, c5, c6] =>
    (Int.ofNat (hexByteVal c1 c2), Int.ofNat (hexByteVal c3 c4),
      Int.ofNat (hexByteVal c5 c6))
  | _ => (0, 0, 0)

/-- Output channel written from the spec wording amended to the floor
rounding the code uses: the integer part of sqrt(mean(channel_i^2)),
clamped to [0, 255]. -/
def specChannelFloor (vals : List Nat) : Nat :=
  min 255 (isqrt ((vals.map (fun v => v * v)).sum / vals.length))

/-- Output channel written from the claim wording as stated:
round(sqrt(mean(channel_i^2))) with round half up, clamped to [0, 255].
For naturals, round half up of sqrt(S / n) is (floor(sqrt(4S / n)) + 1) / 2. -/
def specChannelRound (vals : List Nat) : Nat :=
  min 255 ((isqrt (4 * (vals.map (fun v => v * v)).sum / vals.length) + 1) / 2)

/-- Merged colour written from the spec wording (floor variant):
per-channel quadratic mean with truncation, recombined into a hex
string. -/
def specMergeFloor (colors : List String) : String :=
  let rgbs := colors.map specDecompose
  formatColor (specChannelFloor (rgbs.map (fun t => t.1.toNat)))
    (specChannelFloor (rgbs.map (fun t => t.2.1.toNat)))
    (specChannelFloor (rgbs.map (fun t => t.2.2.toNat)))

/-- Player record stored under /players/(id) in the HDF5 file: the
visited dataset in insertion order (duplicates possible) and the colour
and created attributes (h5_utils.py, add_player / update_visits). -/
structure Player where
  visited : List String
  colour : String
  created : String
deriving DecidableEq, Repr

/-- Content of the /players group: an association list from player id to
record.  HDF5 group member names are unique; stores reachable through
the API keep their keys nodup. -/
abbrev Store := List (String × Player)

/-- HDF5 file content: the /players group and the optional
/palettes/hex_codes dataset. -/
structure H5File where
  players : Store
  palettes : Option (List String)
deriving DecidableEq, Repr

/-- Outcome of a Python call: a returned value, or a raised exception
identified by its class name. -/
inductive PyOutcome (α : Type) where
  | ret (a : α)
  | raised (exn : String)
deriving DecidableEq, Repr

/-- Filesystem surroundings of init_h5 (h5_utils.py, lines 117-151):
whether the parent directory of the target exists, whether the target
can be created there (permissions), and the current content of the
target path. -/
structure FS where
  parentExists : Bool
  canCreate : Bool
  file : Option H5File
deriving DecidableEq, Repr

/-- Embedding of init_h5 (h5_utils.py, lines 117-151): creates missing
parent directories (os.makedirs), opens the target in mode "w"
(truncating any existing file), and writes the empty /players group and
the optional palette dataset.  Every OSError and every other exception
is caught and turned into the return value False (lines 142-151);
nothing is ever raised to the caller. -/
def init_h5 (palette_hexes : Option (List String)) (fs : FS) : PyOutcome Bool × FS :=
  if fs.canCreate then
    (.ret true, { parentExists := true, canCreate := fs.canCreate,
                  file := some { players := [], palettes := palette_hexes } })
  else
    (.ret false, fs)

/-- Lookup of the group /players/(pid): the first binding of pid. -/
def lookupStore (s : Store) (pid : String) : Option Player :=
  match s with
  | [] => none
  | qp :: rest => if qp.1 == pid then some qp.2 else lookupStore rest pid

/-- Worker of add_player on the /players group: require_group creates
the group when absent, the visited dataset is created empty only when
missing, and the colour and created attributes are (re)written
(h5_utils.py, lines 162-169). -/
def addPlayerStore (pid colour now : String) : Store → Store
  | [] => [(pid, { visited := [], colour := colour, created := now })]
  | qp :: rest =>
    if qp.1 == pid then
      (qp.1, { qp.2 with colour := colour, created := now }) :: rest
    else qp :: addPlayerStore pid colour now rest

/-- Embedding of add_player (h5_utils.py, lines 154-169); now is the
value of datetime.datetime.now(UTC).isoformat() at call time, passed
explicitly since the clock is ambient state. -/
def add_player (pid colour now : String) (f : H5File) : H5File :=
  { f with players := addPlayerStore pid colour now f.players }

/-- Worker of update_visits: none when /players/(pid)/visited is absent
(h5py raises KeyError on the indexing at line 181), otherwise the store
with the codes appended in order to the visited dataset (resize plus
slice assignment, h5_utils.py, lines 182-184). -/
def updateVisitsStore (pid : String) (codes : List String) : Store → Option Store
  | [] => none
  | qp :: rest =>
    if qp.1 == pid then
      some ((qp.1, { qp.2 with visited := qp.2.visited ++ codes }) :: rest)
    else (updateVisitsStore pid codes rest).map (fun s => qp :: s)

/-- Embedding of update_visits (h5_utils.py, lines 172-184): raises the
h5py KeyError when the player does not exist, appends otherwise. -/
def update_visits (pid : String) (codes : List String) (f : H5File) :
    PyOutcome H5File :=
  match updateVisitsStore pid codes f.players with
  | some s => .ret { f with players := s }
  | none => .raised "KeyError"

/-- Worker of clear_player_visits: resize the visited dataset to length
zero when the group exists, leave the store unchanged otherwise. -/
def clearVisitsStore (pid : String) : Store → Store
  | [] => []
  | qp :: rest =>
    if qp.1 == pid then (qp.1, { qp.2 with visited := [] }) :: rest
    else qp :: clearVisitsStore pid rest

/-- Embedding of clear_player_visits (h5_utils.py, lines 299-309): a
no-op when the player does not exist; no exception either way. -/
def clear_player_visits (pid : String) (f : H5File) : H5File :=
  { f with players := clearVisitsStore pid f.players }

/-- Participant record as returned by get_players: the visited dataset
is read back through set(...), hence a finite set. -/
structure PlayerView where
  colour : String
  visited : Finset String
  created : String
deriving DecidableEq

/-- View of one stored record through get_players (h5_utils.py, lines
200-207). -/
def viewOf (p : Player) : PlayerView :=
  { colour := p.colour, visited := p.visited.toFinset, created := p.created }

/-- Embedding of get_players (h5_utils.py, lines 187-208): every stored
player, with the colour and created attributes and the visited dataset
collapsed to a set. -/
def get_players (f : H5File) : List (String × PlayerView) :=
  f.players.map (fun qp => (qp.1, viewOf qp.2))

/-- Record of one participant as shown by get_players. -/
def playerView (f : H5File) (pid : String) : Option PlayerView :=
  ((get_players f).find? (fun qp => qp.1 == pid)).map (fun qp => qp.2)

/-- Keys of the /players group. -/
def storeKeys (f : H5File) : List String := f.players.map (fun qp => qp.1)

theorem lookupStore_eq_find (s : Store) (pid : String) :
    lookupStore s pid = (s.find? (fun qp => qp.1 == pid)).map (fun qp => qp.2) := by
  induction s with
  | nil => rfl
  | cons qp rest ih =>
    by_cases h : qp.1 == pid
    · simp [lookupStore, List.find?, h]
    · have hb : (qp.1 == pid) = false := by simpa using h
      simp only [lookupStore, List.find?_cons, hb, Bool.false_eq_true, if_false]
      exact ih

theorem playerView_eq (f : H5File) (pid : String) :
    playerView f pid = (lookupStore f.players pid).map viewOf := by
  unfold playerView get_players
  induction f.players with
  | nil => rfl
  | cons qp rest ih =>
    by_cases h : qp.1 == pid
    · simp [lookupStore, List.find?, h]
    · have hb : (qp.1 == pid) = false := by simpa using h
      simp only [List.map_cons, List.find?_cons, lookupStore, hb]
      exact ih

theorem lookupStore_none_iff (pid : String) (s : Store) :
    lookupStore s pid = none ↔ pid ∉ s.map Prod.fst := by
  induction s with
  | nil => simp [lookupStore]
  | cons qp rest ih =>
    by_cases h : qp.1 = pid
    · simp [lookupStore, h]
    · have hb : (qp.1 == pid) = false := beq_eq_false_iff_ne.mpr h
      simp only [lookupStore, hb, Bool.false_eq_true, if_false, List.map_cons,
        List.mem_cons, ih]
      constructor
      · intro hn hc
        rcases hc with hc | hc
        · exact h hc.symm
        · exact hn hc
      · intro hn hc
        exact hn (Or.inr hc)

theorem lookupStore_append_self (pid : String) (s : Store) (p : Player)
    (h : lookupStore s pid = none) :
    lookupStore (s ++ [(pid, p)]) pid = some p := by
  induction s with
  | nil => simp [lookupStore]
  | cons qp rest ih =>
    by_cases hq : qp.1 = pid
    · simp [lookupStore, hq] at h
    · have hb : (qp.1 == pid) = false := beq_eq_false_iff_ne.mpr hq
      simp only [lookupStore, hb, Bool.false_eq_true, if_false] at h ⊢
      exact ih h

theorem lookupStore_append_other (q pid : String) (s : Store) (p : Player)
    (h : q ≠ pid) :
    lookupStore (s ++ [(pid, p)]) q = lookupStore s q := by
  induction s with
  | nil =>
    have hb : (pid == q) = false := beq_eq_false_iff_ne.mpr (Ne.symm h)
    simp [lookupStore, hb]
  | cons qp rest ih =>
    by_cases hq : qp.1 = q
    · simp [lookupStore, hq]
    · have hb : (qp.1 == q) = false := beq_eq_false_iff_ne.mpr hq
      simp only [List.cons_append, lookupStore, hb, Bool.false_eq_true, if_false]
      exact ih

theorem addPlayerStore_absent (pid colour now : String) (s : Store)
    (h : lookupStore s pid = none) :
    addPlayerStore pid colour now s = s ++ [(pid, { visited := [], colour := colour, created := now })] := by
  induction s with
  | nil => rfl
  | cons qp rest ih =>
    by_cases hq : qp.1 = pid
    · simp [lookupStore, hq] at h
    · have hb : (qp.1 == pid) = false := beq_eq_false_iff_ne.mpr hq
      simp only [lookupStore, hb, Bool.false_eq_true, if_false] at h
      simp only [addPlayerStore, hb, Bool.false_eq_true, if_false, List.cons_append]
      rw [ih h]

theorem addPlayerStore_present (pid colour now : String) (s : Store) (p : Player)
    (h : lookupStore s pid = some p) :
    lookupStore (addPlayerStore pid colour now s) pid =
      some { visited := p.visited, colour := colour, created := now } ∧
    (addPlayerStore pid colour now s).map Prod.fst = s.map Prod.fst ∧
    ∀ q, q ≠ pid →
      lookupStore (addPlayerStore pid colour now s) q = lookupStore s q := by
  induction s with
  | nil => simp [lookupStore] at h
  | cons qp rest ih =>
    by_cases hq : qp.1 = pid
    · have hb : (qp.1 == pid) = true := beq_iff_eq.mpr hq
      simp only [lookupStore, hb, if_true] at h
      obtain rfl : qp.2 = p := Option.some_injective _ h
      refine ⟨?_, ?_, ?_⟩
      · simp [addPlayerStore, lookupStore, hb]
      · simp [addPlayerStore, hb]
      · intro q hne
        have hbq : (qp.1 == q) = false := by
          rw [hq]; exact beq_eq_false_iff_ne.mpr (Ne.symm hne)
        simp [addPlayerStore, lookupStore, hb, hbq]
    · have hb : (qp.1 == pid) = false := beq_eq_false_iff_ne.mpr hq
      simp only [lookupStore, hb, Bool.false_eq_true, if_false] at h
      obtain ⟨h1, h2, h3⟩ := ih h
      refine ⟨?_, ?_, ?_⟩
      · simp only [addPlayerStore, hb, Bool.false_eq_true, if_false, lookupStore]
        exact h1
      · simp only [addPlayerStore, hb, Bool.false_eq_true, if_false, List.map_cons, h2]
      · intro q hne
        by_cases hqq : qp.1 = q
        · simp [addPlayerStore, lookupStore, hb, hqq, hne]
        · have hbq : (qp.1 == q) = false := beq_eq_false_iff_ne.mpr hqq
          simp only [addPlayerStore, hb, Bool.false_eq_true, if_false, lookupStore, hbq]
          exact h3 q hne

theorem updateVisitsStore_none_iff (pid : String) (codes : List String) (s : Store) :
    updateVisitsStore pid codes s = none ↔ lookupStore s pid = none := by
  induction s with
  | nil => simp [updateVisitsStore, lookupStore]
  | cons qp rest ih =>
    by_cases hq : qp.1 = pid
    · simp [updateVisitsStore, lookupStore, hq]
    · have hb : (qp.1 == pid) = false := beq_eq_false_iff_ne.mpr hq
      simp only [updateVisitsStore, lookupStore, hb, Bool.false_eq_true, if_false,
        Option.map_eq_none']
      exact ih

theorem updateVisitsStore_some (pid : String) (codes : List String) (s : Store)
    (p : Player) (h : lookupStore s pid = some p) :
    ∃ s2, updateVisitsStore pid codes s = some s2 ∧
      lookupStore s2 pid = some { visited := p.visited ++ codes, colour := p.colour, created := p.created } ∧
      (∀ q, q ≠ pid → lookupStore s2 q = lookupStore s q) ∧
      s2.map Prod.fst = s.map Prod.fst := by
  induction s with
  | nil => simp [lookupStore] at h
  | cons qp rest ih =>
    by_cases hq : qp.1 = pid
    · have hb : (qp.1 == pid) = true := beq_iff_eq.mpr hq
      simp only [lookupStore, hb, if_true] at h
      obtain rfl : qp.2 = p := Option.some_injective _ h
      refine ⟨(qp.1, { visited := qp.2.visited ++ codes, colour := qp.2.colour, created := qp.2.created }) :: rest, ?_, ?_, ?_, ?_⟩
      · simp [updateVisitsStore, hb]
      · simp [lookupStore, hb]
      · intro q hne
        have hbq : (qp.1 == q) = false := by
          rw [hq]; exact beq_eq_false_iff_ne.mpr (Ne.symm hne)
        simp [lookupStore, hbq]
      · simp
    · have hb : (qp.1 == pid) = false := beq_eq_false_iff_ne.mpr hq
      simp only [lookupStore, hb, Bool.false_eq_true, if_false] at h
      obtain ⟨s2, hs2, hl, ho, hk⟩ := ih h
      refine ⟨qp :: s2, ?_, ?_, ?_, ?_⟩
      · simp [updateVisitsStore, hb, hs2]
      · simp only [lookupStore, hb, Bool.false_eq_true, if_false]
        exact hl
      · intro q hne
        by_cases hqq : qp.1 = q
        · simp [lookupStore, hqq]
        · have hbq : (qp.1 == q) = false := beq_eq_false_iff_ne.mpr hqq
          simp only [lookupStore, hbq, Bool.false_eq_true, if_false]
          exact ho q hne
      · simp [hk]

theorem clearVisitsStore_absent (pid : String) (s : Store)
    (h : lookupStore s pid = none) : clearVisitsStore pid s = s := by
  induction s with
  | nil => rfl
  | cons qp rest ih =>
    by_cases hq : qp.1 = pid
    · simp [lookupStore, hq] at h
    · have hb : (qp.1 == pid) = false := beq_eq_false_iff_ne.mpr hq
      simp only [lookupStore, hb, Bool.false_eq_true, if_false] at h
      simp only [clearVisitsStore, hb, Bool.false_eq_true, if_false]
      rw [ih h]

theorem clearVisitsStore_present (pid : String) (s : Store) (p : Player)
    (h : lookupStore s pid = some p) :
    lookupStore (clearVisitsStore pid s) pid =
      some { visited := [], colour := p.colour, created := p.created } ∧
    ∀ q, q ≠ pid → lookupStore (clearVisitsStore pid s) q = lookupStore s q := by
  induction s with
  | nil => simp [lookupStore] at h
  | cons qp rest ih =>
    by_cases hq : qp.1 = pid
    · have hb : (qp.1 == pid) = true := beq_iff_eq.mpr hq
      simp only [lookupStore, hb, if_true] at h
      obtain rfl : qp.2 = p := Option.some_injective _ h
      refine ⟨by simp [clearVisitsStore, lookupStore, hb], ?_⟩
      intro q hne
      have hbq : (qp.1 == q) = false := by
        rw [hq]; exact beq_eq_false_iff_ne.mpr (Ne.symm hne)
      simp [clearVisitsStore, lookupStore, hb, hbq]
    · have hb : (qp.1 == pid) = false := beq_eq_false_iff_ne.mpr hq
      simp only [lookupStore, hb, Bool.false_eq_true, if_false] at h
      obtain ⟨h1, h2⟩ := ih h
      refine ⟨?_, ?_⟩
      · simp only [clearVisitsStore, hb, Bool.false_eq_true, if_false, lookupStore]
        exact h1
      · intro q hne
        by_cases hqq : qp.1 = q
        · simp [clearVisitsStore, lookupStore, hb, hqq, hne]
        · have hbq : (qp.1 == q) = false := beq_eq_false_iff_ne.mpr hqq
          simp only [clearVisitsStore, hb, Bool.false_eq_true, if_false, lookupStore, hbq]
          exact h2 q hne

/-- C2 counterexample: on a location that cannot be created, init_h5
returns normally with the value False; no exception — in particular no
StorageError — is raised (h5_utils.py, lines 142-151 catch everything
and return False). -/
theorem C2_init_h5_cex :
    (init_h5 none { parentExists := false, canCreate := false, file := none }).1 =
      .ret false ∧
    (init_h5 none { parentExists := false, canCreate := false, file := none }).1 ≠
      .raised "StorageError" := by
  decide

/-- C2 (amended): init_h5 creates an empty store with zero participants
at the target, creating missing parent directories and truncating any
existing store there; when the location cannot be created it reports
failure by returning False (after printing the error) rather than by
raising an exception. -/
theorem C2_init_h5 (ph : Option (List String)) (fs : FS) :
    (fs.canCreate = true →
      init_h5 ph fs =
        (.ret true,
          { parentExists := true, canCreate := true,
            file := some { players := [], palettes := ph } }) ∧
      get_players { players := [], palettes := ph } = []) ∧
    (fs.canCreate = false → init_h5 ph fs = (.ret false, fs)) ∧
    ∀ e, (init_h5 ph fs).1 ≠ .raised e := by
  refine ⟨?_, ?_, ?_⟩
  · intro h
    exact ⟨by simp [init_h5, h], rfl⟩
  · intro h
    simp [init_h5, h]
  · intro e
    by_cases h : fs.canCreate <;> simp [init_h5, h]

/-- C2 witness: both branches of the amended claim at concrete
filesystem states. -/
theorem C2_init_h5_witness :
    init_h5 none
      { parentExists := false, canCreate := false,
        file := some { players := [("p", { visited := ["US"], colour := "#111111", created := "t" })], palettes := none } } =
      (.ret false,
        { parentExists := false, canCreate := false,
          file := some { players := [("p", { visited := ["US"], colour := "#111111", created := "t" })], palettes := none } }) ∧
    init_h5 none { parentExists := false, canCreate := true, file := none } =
      (.ret true,
        { parentExists := true, canCreate := true,
          file := some { players := [], palettes := none } }) :=
  ⟨(C2_init_h5 none _).2.1 rfl, ((C2_init_h5 none _).1 rfl).1⟩

/-- C3: update_visits fails — with the KeyError that h5py raises on the
missing /players/(id)/visited path, the typed error the spec calls
NotFoundError — exactly when no participant with that id exists; when
the participant exists it succeeds, appends every given code to the
visited data, changes no other participant, and every appended code is
in the visited set shown by get_players. -/
theorem C3_update_visits (pid : String) (codes : List String) (f : H5File) :
    (update_visits pid codes f = .raised "KeyError" ↔
      lookupStore f.players pid = none) ∧
    (∀ p, lookupStore f.players pid = some p →
      ∃ g, update_visits pid codes f = .ret g ∧
        lookupStore g.players pid =
          some { visited := p.visited ++ codes, colour := p.colour, created := p.created } ∧
        (∀ q, q ≠ pid → lookupStore g.players q = lookupStore f.players q) ∧
        g.palettes = f.palettes ∧
        ∀ c ∈ codes, ∃ pv, playerView g pid = some pv ∧ c ∈ pv.visited) := by
  constructor
  · constructor
    · intro h
      rw [← updateVisitsStore_none_iff pid codes]
      unfold update_visits at h
      cases hu : updateVisitsStore pid codes f.players with
      | none => rfl
      | some s => rw [hu] at h; cases h
    · intro h
      have hn := (updateVisitsStore_none_iff pid codes f.players).mpr h
      unfold update_visits
      rw [hn]
  · intro p hp
    obtain ⟨s2, hs2, hl, ho, hk⟩ := updateVisitsStore_some pid codes f.players p hp
    refine ⟨{ f with players := s2 }, ?_, hl, ho, rfl, ?_⟩
    · unfold update_visits; rw [hs2]
    · intro c hc
      refine ⟨viewOf { visited := p.visited ++ codes, colour := p.colour, created := p.created }, ?_, ?_⟩
      · rw [playerView_eq]
        show (lookupStore s2 pid).map viewOf = _
        rw [hl]
        rfl
      · show c ∈ (p.visited ++ codes).toFinset
        rw [List.mem_toFinset]
        exact List.mem_append_right _ hc

/-- C3 witness: the failing branch on a missing id and the appending
branch on an existing one, at a concrete store. -/
theorem C3_update_visits_witness :
    (update_visits "bob" ["US"]
        { players := [("alice", { visited := ["DE"], colour := "#111111", created := "t0" })],
          palettes := none } = .raised "KeyError") ∧
    ∃ g, update_visits "alice" ["US", "FR"]
        { players := [("alice", { visited := ["DE"], colour := "#111111", created := "t0" })],
          palettes := none } = .ret g ∧
      lookupStore g.players "alice" =
        some { visited := ["DE"] ++ ["US", "FR"], colour := "#111111", created := "t0" } ∧
      (∀ q, q ≠ "alice" →
        lookupStore g.players q =
          lookupStore [("alice", { visited := ["DE"], colour := "#111111", created := "t0" })] q) ∧
      g.palettes = none ∧
      ∀ c ∈ ["US", "FR"], ∃ pv, playerView g "alice" = some pv ∧ c ∈ pv.visited :=
  ⟨(C3_update_visits "bob" ["US"] _).1.mpr rfl,
   (C3_update_visits "alice" ["US", "FR"] _).2
     { visited := ["DE"], colour := "#111111", created := "t0" } rfl⟩

/-- C5: add_player creates the participant with an empty visited set and
the supplied creation timestamp when the id is absent, updates colour
and created in place — keeping the visited countries and not duplicating
the record — when the id is present, leaves every other participant
unchanged, and get_players then shows the participant with the given
colour (with an empty visited set for a fresh id). -/
theorem C5_add_player (pid colour now : String) (f : H5File)
    (hnd : (storeKeys f).Nodup) :
    (storeKeys (add_player pid colour now f)).Nodup ∧
    (lookupStore f.players pid = none →
      lookupStore (add_player pid colour now f).players pid =
        some { visited := [], colour := colour, created := now } ∧
      playerView (add_player pid colour now f) pid =
        some { colour := colour, visited := ∅, created := now } ∧
      storeKeys (add_player pid colour now f) = storeKeys f ++ [pid]) ∧
    (∀ p, lookupStore f.players pid = some p →
      lookupStore (add_player pid colour now f).players pid =
        some { visited := p.visited, colour := colour, created := now } ∧
      playerView (add_player pid colour now f) pid =
        some { colour := colour, visited := p.visited.toFinset, created := now } ∧
      storeKeys (add_player pid colour now f) = storeKeys f) ∧
    (∀ q, q ≠ pid →
      lookupStore (add_player pid colour now f).players q = lookupStore f.players q) ∧
    (add_player pid colour now f).palettes = f.palettes := by
  have hnodup : (storeKeys (add_player pid colour now f)).Nodup := by
    cases hl : lookupStore f.players pid with
    | none =>
      show ((addPlayerStore pid colour now f.players).map Prod.fst).Nodup
      rw [addPlayerStore_absent pid colour now f.players hl, List.map_append]
      rw [List.nodup_append]
      refine ⟨hnd, by simp, ?_⟩
      intro x hx hx1
      simp only [List.map_cons, List.map_nil, List.mem_singleton] at hx1
      rw [hx1] at hx
      exact (lookupStore_none_iff pid f.players).mp hl hx
    | some p =>
      show ((addPlayerStore pid colour now f.players).map Prod.fst).Nodup
      rw [(addPlayerStore_present pid colour now f.players p hl).2.1]
      exact hnd
  refine ⟨hnodup, ?_, ?_, ?_, rfl⟩
  · intro hl
    have ha := addPlayerStore_absent pid colour now f.players hl
    refine ⟨?_, ?_, ?_⟩
    · show lookupStore (addPlayerStore pid colour now f.players) pid = _
      rw [ha]
      exact lookupStore_append_self pid f.players _ hl
    · rw [playerView_eq]
      show (lookupStore (addPlayerStore pid colour now f.players) pid).map viewOf = _
      rw [ha, lookupStore_append_self pid f.players _ hl]
      rfl
    · show (addPlayerStore pid colour now f.players).map Prod.fst = _
      rw [ha, List.map_append]
      rfl
  · intro p hl
    obtain ⟨h1, h2, h3⟩ := addPlayerStore_present pid colour now f.players p hl
    refine ⟨h1, ?_, h2⟩
    rw [playerView_eq]
    show (lookupStore (addPlayerStore pid colour now f.players) pid).map viewOf = _
    rw [h1]
    rfl
  · intro q hq
    cases hl : lookupStore f.players pid with
    | none =>
      show lookupStore (addPlayerStore pid colour now f.players) q = _
      rw [addPlayerStore_absent pid colour now f.players hl]
      exact lookupStore_append_other q pid f.players _ hq
    | some p =>
      exact (addPlayerStore_present pid colour now f.players p hl).2.2 q hq

/-- C5 witness: creating a fresh participant and re-adding an existing
one, at a concrete store. -/
theorem C5_add_player_witness :
    (lookupStore (add_player "bob" "#00ff00" "t1"
        { players := [("alice", { visited := ["DE"], colour := "#111111", created := "t0" })],
          palettes := none }).players "bob" =
      some { visited := [], colour := "#00ff00", created := "t1" } ∧
    playerView (add_player "bob" "#00ff00" "t1"
        { players := [("alice", { visited := ["DE"], colour := "#111111", created := "t0" })],
          palettes := none }) "bob" =
      some { colour := "#00ff00", visited := ∅, created := "t1" } ∧
    storeKeys (add_player "bob" "#00ff00" "t1"
        { players := [("alice", { visited := ["DE"], colour := "#111111", created := "t0" })],
          palettes := none }) = ["alice"] ++ ["bob"]) ∧
    (lookupStore (add_player "alice" "#222222" "t2"
        { players := [("alice", { visited := ["DE"], colour := "#111111", created := "t0" })],
          palettes := none }).players "alice" =
      some { visited := ["DE"], colour := "#222222", created := "t2" } ∧
    playerView (add_player "alice" "#222222" "t2"
        { players := [("alice", { visited := ["DE"], colour := "#111111", created := "t0" })],
          palettes := none }) "alice" =
      some { colour := "#222222", visited := (["DE"] : List String).toFinset, created := "t2" } ∧
    storeKeys (add_player "alice" "#222222" "t2"
        { players := [("alice", { visited := ["DE"], colour := "#111111", created := "t0" })],
          palettes := none }) = ["alice"]) :=
  ⟨(C5_add_player "bob" "#00ff00" "t1" _ (by decide)).2.1 rfl,
   (C5_add_player "alice" "#222222" "t2" _ (by decide)).2.2.1
     { visited := ["DE"], colour := "#111111", created := "t0" } rfl⟩

/-- C8: clear_player_visits leaves an existing participant with an empty
visited set regardless of the appends performed before, leaves every
other participant unchanged, and is a no-op on the store (with no error
raised) when the id does not exist. -/
theorem C8_clear_player_visits (pid : String) (f : H5File) :
    (lookupStore f.players pid = none → clear_player_visits pid f = f) ∧
    (∀ p, lookupStore f.players pid = some p →
      lookupStore (clear_player_visits pid f).players pid =
        some { visited := [], colour := p.colour, created := p.created } ∧
      (∀ q, q ≠ pid →
        lookupStore (clear_player_visits pid f).players q = lookupStore f.players q) ∧
      ∃ pv, playerView (clear_player_visits pid f) pid = some pv ∧ pv.visited = ∅) := by
  constructor
  · intro h
    show ({ f with players := clearVisitsStore pid f.players } : H5File) = f
    rw [clearVisitsStore_absent pid f.players h]
  · intro p hp
    obtain ⟨h1, h2⟩ := clearVisitsStore_present pid f.players p hp
    refine ⟨h1, h2, ?_⟩
    refine ⟨viewOf { visited := [], colour := p.colour, created := p.created }, ?_, rfl⟩
    rw [playerView_eq]
    show (lookupStore (clearVisitsStore pid f.players) pid).map viewOf = _
    rw [h1]
    rfl

/-- C8 witness: clearing an unknown id is a no-op and clearing an
existing one empties its visited set, at a concrete store. -/
theorem C8_clear_player_visits_witness :
    (clear_player_visits "bob"
        { players := [("alice", { visited := ["DE", "FR"], colour := "#111111", created := "t0" })],
          palettes := none } =
      { players := [("alice", { visited := ["DE", "FR"], colour := "#111111", created := "t0" })],
        palettes := none }) ∧
    (lookupStore (clear_player_visits "alice"
        { players := [("alice", { visited := ["DE", "FR"], colour := "#111111", created := "t0" })],
          palettes := none }).players "alice" =
      some { visited := [], colour := "#111111", created := "t0" } ∧
    (∀ q, q ≠ "alice" →
      lookupStore (clear_player_visits "alice"
          { players := [("alice", { visited := ["DE", "FR"], colour := "#111111", created := "t0" })],
            palettes := none }).players q =
        lookupStore [("alice", { visited := ["DE", "FR"], colour := "#111111", created := "t0" })] q) ∧
    ∃ pv, playerView (clear_player_visits "alice"
        { players := [("alice", { visited := ["DE", "FR"], colour := "#111111", created := "t0" })],
          palettes := none }) "alice" = some pv ∧ pv.visited = ∅) :=
  ⟨(C8_clear_player_visits "bob" _).1 rfl,
   (C8_clear_player_visits "alice" _).2
     { visited := ["DE", "FR"], colour := "#111111", created := "t0" } rfl⟩

/-- C9: writing a fresh store with participant A (colour #111111,
visited DE) and participant B (colour #222222, visited DE and FR) and
reading it back through get_players reproduces exactly the written ids,
colours, creation timestamps and visited sets. -/
theorem C9_roundtrip (tA tB : String) :
    ∃ f1 f2,
      update_visits "A" ["DE"]
          (add_player "B" "#222222" tB (add_player "A" "#111111" tA
            { players := [], palettes := none })) = .ret f1 ∧
      update_visits "B" ["DE", "FR"] f1 = .ret f2 ∧
      get_players f2 =
        [("A", { colour := "#111111", visited := (["DE"] : List String).toFinset, created := tA }),
         ("B", { colour := "#222222", visited := (["DE", "FR"] : List String).toFinset, created := tB })] :=
  ⟨_, _, rfl, rfl, rfl⟩

/-- C10: the visited collection shown by get_players holds every code at
most once however often it was appended, and appending a code the
participant already has leaves that participant's shown record
unchanged. -/
theorem C10_read_dedup (f : H5File) (pid : String) :
    (∀ pv, playerView f pid = some pv → ∀ c, pv.visited.val.count c ≤ 1) ∧
    (∀ p c, lookupStore f.players pid = some p → c ∈ p.visited →
      ∃ g, update_visits pid [c] f = .ret g ∧ playerView g pid = playerView f pid) := by
  constructor
  · intro pv _ c
    exact Multiset.nodup_iff_count_le_one.mp pv.visited.nodup c
  · intro p c hp hc
    obtain ⟨s2, hs2, hl, ho, hk⟩ := updateVisitsStore_some pid [c] f.players p hp
    have hv : (p.visited ++ [c]).toFinset = p.visited.toFinset := by
      rw [List.toFinset_append, Finset.union_eq_left]
      intro x hx
      simp only [List.toFinset_cons, List.toFinset_nil, insert_emptyc_eq,
        Finset.mem_singleton] at hx
      rw [hx, List.mem_toFinset]
      exact hc
    have hv2 : viewOf { visited := p.visited ++ [c], colour := p.colour, created := p.created } =
        viewOf p := by
      unfold viewOf
      simp only
      rw [hv]
    refine ⟨{ f with players := s2 }, ?_, ?_⟩
    · unfold update_visits; rw [hs2]
    · rw [playerView_eq, playerView_eq]
      show (lookupStore s2 pid).map viewOf = (lookupStore f.players pid).map viewOf
      rw [hl, hp, Option.map_some', Option.map_some', hv2]

/-- C10 witness: appending the already-present code DE leaves the shown
record unchanged, at a concrete store; the shown visited multiset counts
DE once. -/
theorem C10_read_dedup_witness :
    (∀ pv, playerView
        { players := [("alice", { visited := ["DE", "DE"], colour := "#111111", created := "t0" })],
          palettes := none } "alice" = some pv → ∀ c, pv.visited.val.count c ≤ 1) ∧
    ∃ g, update_visits "alice" ["DE"]
        { players := [("alice", { visited := ["DE", "DE"], colour := "#111111", created := "t0" })],
          palettes := none } = .ret g ∧
      playerView g "alice" =
        playerView
          { players := [("alice", { visited := ["DE", "DE"], colour := "#111111", created := "t0" })],
            palettes := none } "alice" :=
  ⟨(C10_read_dedup _ "alice").1,
   (C10_read_dedup _ "alice").2
     { visited := ["DE", "DE"], colour := "#111111", created := "t0" } "DE" rfl (by decide)⟩

/-- C6 counterexample: for an existing participant that has already
visited DE, appending US and CA and then FR yields a visited set that
also contains DE — four codes, not exactly the three appended ones —
although none of US, CA, FR was present before. -/
theorem C6_cex :
    update_visits "alice" ["US", "CA"]
        { players := [("alice", { visited := ["DE"], colour := "#111111", created := "t0" })],
          palettes := none } =
      .ret { players := [("alice", { visited := ["DE", "US", "CA"], colour := "#111111", created := "t0" })],
             palettes := none } ∧
    update_visits "alice" ["FR"]
        { players := [("alice", { visited := ["DE", "US", "CA"], colour := "#111111", created := "t0" })],
          palettes := none } =
      .ret { players := [("alice", { visited := ["DE", "US", "CA", "FR"], colour := "#111111", created := "t0" })],
             palettes := none } ∧
    playerView
        { players := [("alice", { visited := ["DE", "US", "CA", "FR"], colour := "#111111", created := "t0" })],
          palettes := none } "alice" =
      some { colour := "#111111", visited := (["DE", "US", "CA", "FR"] : List String).toFinset,
             created := "t0" } ∧
    (["DE", "US", "CA", "FR"] : List String).toFinset.card = 4 ∧
    "DE" ∈ (["DE", "US", "CA", "FR"] : List String).toFinset ∧
    "DE" ∉ (["US", "CA", "FR"] : List String).toFinset ∧
    "US" ∉ (["DE"] : List String) ∧ "CA" ∉ (["DE"] : List String) ∧
    "FR" ∉ (["DE"] : List String) := by
  decide

/-- C6 (amended): for an existing participant none of whose previously
visited codes is US, CA or FR, appending US and CA and then FR yields,
as shown by get_players, a visited set equal to the previous set plus
exactly these three codes — of size previous + 3, hence exactly the
set of the three codes with size 3 when the participant had no previous
visits.  (As stated the claim overlooks previously visited codes, which
remain in the set.) -/
theorem C6_append_three (pid : String) (f : H5File) (p : Player)
    (hp : lookupStore f.players pid = some p)
    (hUS : "US" ∉ p.visited) (hCA : "CA" ∉ p.visited) (hFR : "FR" ∉ p.visited) :
    ∃ f1 f2, update_visits pid ["US", "CA"] f = .ret f1 ∧
      update_visits pid ["FR"] f1 = .ret f2 ∧
      ∃ pv, playerView f2 pid = some pv ∧
        pv.visited = p.visited.toFinset ∪ {"US", "CA", "FR"} ∧
        pv.visited.card = p.visited.toFinset.card + 3 ∧
        (p.visited = [] → pv.visited = {"US", "CA", "FR"} ∧ pv.visited.card = 3) := by
  obtain ⟨s1, hs1, hl1, _, _⟩ := updateVisitsStore_some pid ["US", "CA"] f.players p hp
  obtain ⟨s2, hs2, hl2, _, _⟩ :=
    updateVisitsStore_some pid ["FR"] s1
      { visited := p.visited ++ ["US", "CA"], colour := p.colour, created := p.created } hl1
  refine ⟨{ f with players := s1 }, { f with players := s2 }, ?_, ?_, ?_⟩
  · unfold update_visits; rw [hs1]
  · simp only [update_visits]
    rw [hs2]
  · have hv : ((p.visited ++ ["US", "CA"]) ++ ["FR"]).toFinset =
        p.visited.toFinset ∪ {"US", "CA", "FR"} := by
      ext x
      simp only [List.mem_toFinset, List.mem_append, List.mem_cons,
        List.not_mem_nil, or_false, Finset.mem_union, Finset.mem_insert,
        Finset.mem_singleton]
      tauto
    have hdisj : Disjoint p.visited.toFinset ({"US", "CA", "FR"} : Finset String) := by
      rw [Finset.disjoint_right]
      intro a ha hmem
      simp only [Finset.mem_insert, Finset.mem_singleton] at ha
      rw [List.mem_toFinset] at hmem
      rcases ha with rfl | rfl | rfl
      · exact hUS hmem
      · exact hCA hmem
      · exact hFR hmem
    have hcard3 : ({"US", "CA", "FR"} : Finset String).card = 3 := by decide
    refine ⟨viewOf { visited := (p.visited ++ ["US", "CA"]) ++ ["FR"], colour := p.colour, created := p.created }, ?_, ?_, ?_, ?_⟩
    · rw [playerView_eq]
      show (lookupStore s2 pid).map viewOf = _
      rw [hl2]
      rfl
    · show ((p.visited ++ ["US", "CA"]) ++ ["FR"]).toFinset = _
      exact hv
    · show ((p.visited ++ ["US", "CA"]) ++ ["FR"]).toFinset.card = _
      rw [hv, Finset.card_union_of_disjoint hdisj, hcard3]
    · intro hnil
      constructor
      · show ((p.visited ++ ["US", "CA"]) ++ ["FR"]).toFinset = _
        rw [hv, hnil]
        simp
      · show ((p.visited ++ ["US", "CA"]) ++ ["FR"]).toFinset.card = _
        rw [hv, Finset.card_union_of_disjoint hdisj, hcard3, hnil]
        simp

/-- C6 witness: the amended claim at a concrete store whose participant
has previously visited DE only. -/
theorem C6_append_three_witness :
    ∃ f1 f2, update_visits "alice" ["US", "CA"]
        { players := [("alice", { visited := ["DE"], colour := "#111111", created := "t0" })],
          palettes := none } = .ret f1 ∧
      update_visits "alice" ["FR"] f1 = .ret f2 ∧
      ∃ pv, playerView f2 "alice" = some pv ∧
        pv.visited = (["DE"] : List String).toFinset ∪ {"US", "CA", "FR"} ∧
        pv.visited.card = (["DE"] : List String).toFinset.card + 3 ∧
        ((["DE"] : List String) = [] → pv.visited = {"US", "CA", "FR"} ∧ pv.visited.card = 3) :=
  C6_append_three "alice" _
    { visited := ["DE"], colour := "#111111", created := "t0" } rfl
    (by decide) (by decide) (by decide)

/-- Merged colour written from the claim wording as stated (round
variant): per-channel quadratic mean with rounding, recombined into a
hex string. -/
def specMergeRound (colors : List String) : String :=
  let rgbs := colors.map specDecompose
  formatColor (specChannelRound (rgbs.map (fun t => t.1.toNat)))
    (specChannelRound (rgbs.map (fun t => t.2.1.toNat)))
    (specChannelRound (rgbs.map (fun t => t.2.2.toNat)))

theorem normColor_valid (s : String) (c1 c2 c3 c4 c5 c6 : Char)
    (hsl : s.toList = ['#', c1, c2, c3, c4, c5, c6]) : normColor s = s := by
  have hd : s.data = ['#', c1, c2, c3, c4, c5, c6] := hsl
  have hh : hasHashHead s = true := by simp [hasHashHead, hsl, hd]
  have hlen : s.length = 7 := by
    have h0 : s.length = s.toList.length := rfl
    rw [h0, hsl]
    rfl
  simp [normColor, hh, hlen]

theorem toRGB_valid (s : String) (h : validHexColor s = true) :
    toRGB s = some (specDecompose s) := by
  rcases hsl : s.toList with _ | ⟨c0, _ | ⟨c1, _ | ⟨c2, _ | ⟨c3, _ | ⟨c4, _ | ⟨c5, _ | ⟨c6, _ | ⟨c7, rest⟩⟩⟩⟩⟩⟩⟩⟩ <;>
    simp only [validHexColor, hsl, Bool.and_eq_true, beq_iff_eq,
      Bool.false_eq_true] at h
  rw [and_assoc, and_assoc, and_assoc, and_assoc, and_assoc] at h
  obtain ⟨hc0, h1, h2, h3, h4, h5, h6⟩ := h
  subst hc0
  obtain ⟨v1, hv1⟩ := Option.isSome_iff_exists.mp h1
  obtain ⟨v2, hv2⟩ := Option.isSome_iff_exists.mp h2
  obtain ⟨v3, hv3⟩ := Option.isSome_iff_exists.mp h3
  obtain ⟨v4, hv4⟩ := Option.isSome_iff_exists.mp h4
  obtain ⟨v5, hv5⟩ := Option.isSome_iff_exists.mp h5
  obtain ⟨v6, hv6⟩ := Option.isSome_iff_exists.mp h6
  have hn := normColor_valid s c1 c2 c3 c4 c5 c6 hsl
  unfold toRGB specDecompose
  rw [hn, hsl]
  simp [pyIntHex2, hexByteVal, hv1, hv2, hv3, hv4, hv5, hv6]

theorem filterMap_toRGB_valid (colors : List String)
    (hv : ∀ s ∈ colors, validHexColor s = true) :
    colors.filterMap toRGB = colors.map specDecompose := by
  induction colors with
  | nil => rfl
  | cons a l ih =>
    have ha := toRGB_valid a (hv a (List.mem_cons_self a l))
    rw [List.filterMap_cons, ha]
    show specDecompose a :: List.filterMap toRGB l = _
    rw [List.map_cons, ih (fun s hs => hv s (List.mem_cons_of_mem a hs))]

theorem specDecompose_nonneg (s : String) :
    0 ≤ (specDecompose s).1 ∧ 0 ≤ (specDecompose s).2.1 ∧ 0 ≤ (specDecompose s).2.2 := by
  unfold specDecompose
  split
  · exact ⟨Int.ofNat_nonneg _, Int.ofNat_nonneg _, Int.ofNat_nonneg _⟩
  · exact ⟨le_refl 0, le_refl 0, le_refl 0⟩

theorem sumSq_toNat (g : RGB → Int) (rgbs : List RGB) (h : ∀ t ∈ rgbs, 0 ≤ g t) :
    (rgbs.map (fun t => sqNat (g t))).sum =
      ((rgbs.map (fun t => (g t).toNat)).map (fun v => v * v)).sum := by
  induction rgbs with
  | nil => rfl
  | cons a l ih =>
    simp only [List.map_cons, List.sum_cons]
    obtain ⟨n, hn⟩ := Int.eq_ofNat_of_zero_le (h a (List.mem_cons_self a l))
    rw [ih (fun t ht => h t (List.mem_cons_of_mem a ht)), hn]
    rfl

theorem mixChannel_eq_spec (g : RGB → Int) (rgbs : List RGB)
    (h : ∀ t ∈ rgbs, 0 ≤ g t) :
    mixChannel g rgbs = specChannelFloor (rgbs.map (fun t => (g t).toNat)) := by
  unfold mixChannel specChannelFloor
  rw [List.length_map, sumSq_toNat g rgbs h, Nat.zero_max]

/-- C1 counterexample: the code truncates each mixed channel, so merging
pure white and pure black gives the hex string for channel value 180
(0xb4), not the claimed B5B5B5 — which even the claimed rounding formula
does not produce; and on channels 1 and 2 the code (floor, value 1)
disagrees with the claimed round(sqrt(mean of squares)) (value 2). -/
theorem C1_color_merge_cex :
    styleMulti ["#FFFFFF", "#000000"] = Style.merged "#b4b4b4" ∧
    Style.merged "#b4b4b4" ≠ Style.merged "#B5B5B5" ∧
    Style.merged "#b4b4b4" ≠ Style.merged "#b5b5b5" ∧
    specMergeRound ["#FFFFFF", "#000000"] = "#b4b4b4" ∧
    styleMulti ["#010000", "#020000"] = Style.merged "#010000" ∧
    specMergeRound ["#010000", "#020000"] = "#020000" := by
  decide

/-- C1 (amended): for every list of two or more well-formed hex colours
the merge computes each output channel as the integer part (truncation,
not rounding) of sqrt(mean(channel_i^2)), clamps it to [0, 255] and
recombines the channels into a hex string; merging #FFFFFF and #000000
yields the quadratic-mean gray #b4b4b4. -/
theorem C1_color_merge (colors : List String) (h2 : 2 ≤ colors.length)
    (hv : ∀ s ∈ colors, validHexColor s = true) :
    styleMulti colors = Style.merged (specMergeFloor colors) := by
  have hne : colors.isEmpty = false := by
    cases colors
    · simp at h2
    · rfl
  have hall : colors.all (fun c => (toRGB c).isSome) = true := by
    rw [List.all_eq_true]
    intro c hc
    rw [toRGB_valid c (hv c hc)]
    rfl
  have hnn1 : ∀ t ∈ colors.map specDecompose, 0 ≤ (fun t : RGB => t.1) t := by
    intro t ht
    obtain ⟨s, _, rfl⟩ := List.mem_map.mp ht
    exact (specDecompose_nonneg s).1
  have hnn2 : ∀ t ∈ colors.map specDecompose, 0 ≤ (fun t : RGB => t.2.1) t := by
    intro t ht
    obtain ⟨s, _, rfl⟩ := List.mem_map.mp ht
    exact (specDecompose_nonneg s).2.1
  have hnn3 : ∀ t ∈ colors.map specDecompose, 0 ≤ (fun t : RGB => t.2.2) t := by
    intro t ht
    obtain ⟨s, _, rfl⟩ := List.mem_map.mp ht
    exact (specDecompose_nonneg s).2.2
  simp only [styleMulti, hne, hall, Bool.false_eq_true, if_false, if_true]
  rw [filterMap_toRGB_valid colors hv]
  rw [mixChannel_eq_spec (fun t => t.1) _ hnn1,
    mixChannel_eq_spec (fun t => t.2.1) _ hnn2,
    mixChannel_eq_spec (fun t => t.2.2) _ hnn3]
  rfl

/-- C1 witness: the amended claim at the concrete white/black pair. -/
theorem C1_color_merge_witness :
    2 ≤ (["#FFFFFF", "#000000"] : List String).length ∧
    styleMulti ["#FFFFFF", "#000000"] =
      Style.merged (specMergeFloor ["#FFFFFF", "#000000"]) ∧
    specMergeFloor ["#FFFFFF", "#000000"] = "#b4b4b4" :=
  ⟨by decide, C1_color_merge _ (by decide) (by decide), by decide⟩

/-- C4 counterexample: the list containing the malformed colour #GGGGGG
(seven characters, not hex digits) makes the multi-owner styling fall
back to the default style instead of substituting a gray and producing a
merged colour — unlike an actual #777777 entry, which does merge. -/
theorem C4_malformed_cex :
    styleMulti ["#GGGGGG", "#000000"] = Style.defaultStyle ∧
    validHexColor "#GGGGGG" = false ∧
    styleMulti ["#777777", "#000000"] ≠ Style.defaultStyle := by
  decide

/-- C4 (amended): an input colour whose normalised form does not have
length 7 — wrong length after an optional hash prefix — is substituted
by the fixed neutral gray #777777 (channels 119), and a nonempty list
whose entries all parse still produces a merged colour; but an entry of
the right length containing a non-hex character raises inside the
styling, which then falls back to the default style instead of merging. -/
theorem C4_malformed (s : String) (colors : List String) :
    ((if hasHashHead s then s else "#" ++ s).length ≠ 7 →
      toRGB s = some (119, 119, 119)) ∧
    (colors ≠ [] → (∀ c ∈ colors, (toRGB c).isSome = true) →
      ∃ mc, styleMulti colors = Style.merged mc) ∧
    ((∃ c ∈ colors, toRGB c = none) → styleMulti colors = Style.defaultStyle) := by
  refine ⟨?_, ?_, ?_⟩
  · intro h
    have hn : normColor s = "#777777" := by
      simp only [normColor]
      rw [if_pos h]
    unfold toRGB
    rw [hn]
    rfl
  · intro hne hall
    have hE : colors.isEmpty = false := by
      cases colors
      · exact absurd rfl hne
      · rfl
    have hA : colors.all (fun c => (toRGB c).isSome) = true :=
      List.all_eq_true.mpr hall
    refine ⟨formatColor (mixChannel (fun t => t.1) (colors.filterMap toRGB))
      (mixChannel (fun t => t.2.1) (colors.filterMap toRGB))
      (mixChannel (fun t => t.2.2) (colors.filterMap toRGB)), ?_⟩
    simp only [styleMulti, hE, hA, Bool.false_eq_true, if_false, if_true]
  · rintro ⟨c, hc, hnone⟩
    have hA : colors.all (fun c => (toRGB c).isSome) = false := by
      rcases hb : colors.all (fun c => (toRGB c).isSome) with _ | _
      · rfl
      · rw [List.all_eq_true] at hb
        have := hb c hc
        rw [hnone] at this
        cases this
    unfold styleMulti
    rcases hE : colors.isEmpty with _ | _
    · simp only [hE, hA, Bool.false_eq_true, if_false]
    · simp only [hE, if_true]

/-- C4 witness: the gray substitution on the short colour zz, a
successful merge with that substituted entry, and the default-style
fallback on the malformed #GGGGGG. -/
theorem C4_malformed_witness :
    toRGB "zz" = some (119, 119, 119) ∧
    (∃ mc, styleMulti ["zz", "#123456"] = Style.merged mc) ∧
    styleMulti ["#GGGGGG"] = Style.defaultStyle :=
  ⟨(C4_malformed "zz" []).1 (by decide),
   (C4_malformed "x" ["zz", "#123456"]).2.1 (by decide) (by decide),
   (C4_malformed "x" ["#GGGGGG"]).2.2 ⟨"#GGGGGG", by decide, by decide⟩⟩

theorem mixChannel_perm (g : RGB → Int) (r1 r2 : List RGB) (h : r1.Perm r2) :
    mixChannel g r1 = mixChannel g r2 := by
  unfold mixChannel
  rw [h.length_eq, (h.map (fun t => sqNat (g t))).sum_eq]

/-- C7: the colour merge is deterministic and order-independent — any
permutation of the owner colour list produces the same style, so the
result depends only on the multiset of input colours. -/
theorem C7_merge_perm (l1 l2 : List String) (h : l1.Perm l2) :
    styleMulti l1 = styleMulti l2 := by
  have hlen := h.length_eq
  have hE : l1.isEmpty = l2.isEmpty := by
    cases l1 <;> cases l2 <;> simp_all
  have hAll : l1.all (fun c => (toRGB c).isSome) =
      l2.all (fun c => (toRGB c).isSome) := by
    rcases hb1 : l1.all (fun c => (toRGB c).isSome) with _ | _ <;>
      rcases hb2 : l2.all (fun c => (toRGB c).isSome) with _ | _ <;> try rfl
    · rw [List.all_eq_true] at hb2
      have hh : l1.all (fun c => (toRGB c).isSome) = true :=
        List.all_eq_true.mpr (fun x hx => hb2 x (h.mem_iff.mp hx))
      rw [hb1] at hh
      cases hh
    · rw [List.all_eq_true] at hb1
      have hh : l2.all (fun c => (toRGB c).isSome) = true :=
        List.all_eq_true.mpr (fun x hx => hb1 x (h.mem_iff.mpr hx))
      rw [hb2] at hh
      cases hh
  simp only [styleMulti]
  rw [hE, hAll, mixChannel_perm (fun t => t.1) _ _ (h.filterMap toRGB),
    mixChannel_perm (fun t => t.2.1) _ _ (h.filterMap toRGB),
    mixChannel_perm (fun t => t.2.2) _ _ (h.filterMap toRGB)]

/-- C7 witness: swapping the two owner colours leaves the merged style
unchanged. -/
theorem C7_merge_perm_witness :
    styleMulti ["#FFFFFF", "#000000"] = styleMulti ["#000000", "#FFFFFF"] :=
  C7_merge_perm _ _ (List.Perm.swap _ _ _)



